import Mathlib

/-!
Shallow embedding of `src/index.js` from histograph-import: a command-line
importer that scans configured directories for datasets and synchronizes them
to a remote HTTP API (create / delete / upload).

Modelling conventions:
  * Filesystem and network effects become explicit inputs.  A `DatasetEnv`
    records, for one dataset, what the filesystem and the API would answer
    (descriptor file presence and text, per-request transport error or
    HTTP response, data-file presence).
  * The run is rendered as a trace of `Event`s in the order the source emits
    the corresponding request / console output; each per-dataset step also
    yields a `StepExit` recording how it treated the surrounding `async`
    series' callback: invoked exactly once (the series advances cleanly),
    never (an unhandled `JSON.parse` exception before any callback halts the
    run), or in violation of the once-discipline (a second invocation, or an
    exception after the first).  Past such a violation the program's behaviour
    depends on the `async` library version (a "callback already called" guard
    throw, or a duplicated series advance interleaved with the handler's
    remaining statements), so the model keeps the violating step's own events
    and stops the orderly series there.
  * `JSON.parse` of a response body is modelled by making the parse outcome
    part of the input: an `HttpBody` is either a successfully-parsed object
    (with its optional `message` / `details` fields, which is all the source
    ever reads) or raw text that is not valid JSON, on which a bare
    `JSON.parse` throws (`CbCall.raise`).
  * A JavaScript callback invocation `cb(x)` where `x` is `undefined` is
    indistinguishable from `cb()` at every call site in the source (all of
    them test the argument for truthiness), so a callback argument is an
    `Option String`, with `none` for the falsy / absent case.
-/

namespace Histograph

/-- A parsed JSON response body, restricted to the two fields the source ever
reads: `message` and `details` (`none` models an absent field, whose lookup
yields `undefined`). -/
structure JsonObj where
  message : Option String
  details : Option String
deriving Repr, DecidableEq

/-- An HTTP response body together with its parse status: `jsonBody` is a body
on which `JSON.parse` succeeds with object `obj`; `rawBody` is text on which
`JSON.parse` throws. -/
inductive HttpBody where
  | jsonBody (obj : JsonObj)
  | rawBody (raw : String)
deriving Repr, DecidableEq

/-- An HTTP response as the `request` library hands it to a callback. -/
structure Response where
  statusCode : Nat
  body : HttpBody
deriving Repr, DecidableEq

/-- Outcome of one HTTP request: either the transport failed (the callback's
`err` argument is set, carrying `err.message`) or a response arrived. -/
inductive HttpResult where
  | transportError (msg : String)
  | response (res : Response)
deriving Repr, DecidableEq

/-- One observable action of a response handler towards its continuation:
`call x` is an invocation `cb(x)` (with `none` for `cb()` / a falsy argument),
`raise` is an exception thrown inside the handler (a bare `JSON.parse` on a
non-JSON body), so the continuation is never invoked. -/
inductive CbCall where
  | call (err : Option String)
  | raise
deriving Repr, DecidableEq

/-- Helper for `uniq`: keep each element whose value was not seen before. -/
def uniqAux (seen : List String) : List String → List String
  | [] => []
  | x :: xs =>
      if seen.contains x then uniqAux seen xs
      else x :: uniqAux (x :: seen) xs

/-- `var datasets = _.uniq(argv._);` — underscore's `uniq`, keeping the first
occurrence of each element. -/
def uniq (l : List String) : List String := uniqAux [] l

/-- `var ignoredDirs = ['node_modules', '.git'];` -/
def ignoredDirs : List String := ["node_modules", ".git"]

/-- `path.join(dataDir, dir)` for the simple two-segment case the source
uses. -/
def pathJoin (a b : String) : String := a ++ "/" ++ b

/-- A dataset descriptor `{ id: dir, dir: path.join(dataDir, dir) }`. -/
structure DatasetDescriptor where
  id : String
  dir : String
deriving Repr, DecidableEq

/-- A directory entry as the filesystem holds it: `fs.readdir` reports only
`name`; whether the entry is actually a directory (`isDir`) is knowable only
through `fs.stat`, which the scanner never calls. -/
structure Entry where
  name : String
  isDir : Bool
deriving Repr, DecidableEq

/-- `validFolderPredicate`: keep `dir` iff it is not `'.'`, not in
`ignoredDirs`, and either no explicit dataset list was given or `dir` is in
it (`datasets.length === 0 || datasets.indexOf(dir) > -1`). -/
def validFolderPredicate (datasets : List String) (dir : String) : Bool :=
  !(dir == ".") && !(ignoredDirs.contains dir) &&
    ((datasets.length == 0) || datasets.contains dir)

/-- `makeDirectoryObject`: `{ id: dir, dir: path.join(dataDir, dir) }`. -/
def makeDirectoryObject (dataDir : String) (dir : String) : DatasetDescriptor :=
  ⟨dir, pathJoin dataDir dir⟩

/-- `getDirectory`: `fs.readdir` yields the entry names, `filterFolders`
keeps those passing `validFolderPredicate`, and each survivor becomes a
descriptor.  The helper `isDirectory` of the source is never invoked, so the
`isDir` component of an entry is never consulted. -/
def getDirectory (datasets : List String) (dataDir : String)
    (entries : List Entry) : List DatasetDescriptor :=
  (((entries.map Entry.name).filter
      (validFolderPredicate datasets)).map (makeDirectoryObject dataDir))

/-- The unused helper `isDirectory` of `getDirectory`: looks up the entry's
filesystem type.  Defined by the source but referenced nowhere. -/
def isDirectory (entries : List Entry) (dataset : DatasetDescriptor) : Option Bool :=
  (entries.find? (fun e => e.name == dataset.id)).map Entry.isDir

/-- `notFound.splice(notFound.indexOf(id), 1)`: when `id` is present the
first occurrence is removed; when absent, `indexOf` yields `-1` and
`splice(-1, 1)` removes the LAST element of the array (a no-op only on an
empty array). -/
def spliceRemove (l : List String) (id : String) : List String :=
  if l.contains id then l.erase id else l.dropLast

/-- `createDataset`'s `responseHandler`: transport error reports
`err.message`; status 201 or 409 reports success; any other status runs
`cb(JSON.parse(res.body).message)` — which throws on a non-JSON body and
passes `undefined` (falsy, hence success at the caller) when the parsed body
has no `message` field. -/
def createResponseHandler : HttpResult → CbCall
  | .transportError e => .call (some e)
  | .response res =>
      if res.statusCode = 201 ∨ res.statusCode = 409 then .call none
      else
        match res.body with
        | .jsonBody obj => .call obj.message
        | .rawBody _ => .raise

/-- `deleteDataset`'s `responseHandler`, as the list of callback invocations
it performs in order.  The status-200 branch calls `cb()` but does not
`return`, so control falls through to `cb(JSON.parse(res.body).message)`
afterwards; a `raise` entry ends the list (nothing runs after a throw). -/
def deleteResponseHandler : HttpResult → List CbCall
  | .transportError e => [.call (some e)]
  | .response res =>
      (if res.statusCode = 200 then [CbCall.call none] else []) ++
        (match res.body with
         | .jsonBody obj => [.call obj.message]
         | .rawBody _ => [.raise])

/-- How a per-dataset step treats the async series' callback, classified
from the handler's invocation list: `clean` — invoked exactly once and the
handler returned (syntax of lines 90-98: the anonymous delete callback, or
the create/upload flow, then `cb()`), so the series advances in order;
`never` — the handler raised before any invocation, so the series callback
never fires and the run halts; `broken` — the callback was invoked and the
handler then raised or invoked it again (the fall-through of the delete
handler on every 200 response), so the series' once-discipline is violated:
depending on the `async` version the second `cb()` throws "Callback was
already called" or advances the series a second time, and the orderly
sequential run is over. -/
inductive StepExit where
  | clean
  | never
  | broken
deriving Repr, DecidableEq

/-- Classify a response handler's invocation list as a `StepExit`. -/
def stepExitOf : List CbCall → StepExit
  | [] => .never
  | .raise :: _ => .never
  | [.call _] => .clean
  | .call _ :: _ => .broken

/-- Outcome classification of `uploadFile`'s `done(err, res, body)` handler. -/
inductive UploadOutcome where
  | transportFail (msg : String)
  | success
  | appFailDetails (obj : JsonObj)
  | appFail (message : Option String)
deriving Repr, DecidableEq

/-- The `try { message = JSON.parse(body) } catch { message = {message: body} }`
step of `done`: a parsed object passes through; raw text falls back to
`{ message: body }`; an undefined body (the skipped-upload path) makes
`JSON.parse` throw, so the fallback is `{ message: undefined }`. -/
def uploadParseBody : Option HttpBody → JsonObj
  | some (.jsonBody obj) => obj
  | some (.rawBody raw) => ⟨some raw, none⟩
  | none => ⟨none, none⟩

/-- The reporting tail of `done`: with `details` present the full object is
pretty-printed, otherwise `message.message` is printed. -/
def appFailOf (m : JsonObj) : UploadOutcome :=
  if m.details.isSome then .appFailDetails m else .appFail m.message

/-- `uploadFile`'s `done(err, res, body)`: transport errors are reported with
`err.code`; `res && res.statusCode == 200` is success; everything else —
including the skipped-upload path, where `res` and `body` are `undefined` —
lands in the application-failure branch.  `done` always invokes its callback
afterwards, so the file loop always continues. -/
def uploadDone : Option HttpResult → UploadOutcome
  | some (.transportError e) => .transportFail e
  | some (.response res) =>
      if res.statusCode = 200 then .success
      else appFailOf (uploadParseBody (some res.body))
  | none => appFailOf (uploadParseBody none)

/-- The filesystem / network environment of one dataset: what `fs.exists`,
`fs.readFile` and the three API requests would answer. -/
structure DatasetEnv where
  descriptorExists : Bool
  descriptorText : String
  createResult : HttpResult
  deleteResult : HttpResult
  pitsExists : Bool
  pitsResult : HttpResult
  relationsExists : Bool
  relationsResult : HttpResult
deriving Repr, DecidableEq

/-- One observable step of the run: an API request (recorded by the path
components the source concatenates into the URL) or a console report. -/
inductive Event where
  | apiPost (body : String)
  | apiDelete (datasetId : String)
  | apiPut (datasetId : String) (file : String)
  | noticeFileNotFound (base : String)
  | logCreated (id : String)
  | logCreateFailed (id : String)
  | logDeleted (id : String)
  | logDeleteFailed (id : String)
  | logUploadSuccess (base : String)
  | logUploadFailedTransport (base : String)
  | logUploadFailedApp (base : String)
deriving Repr, DecidableEq

/-- The error string of `createDataset`'s `readFile` step when the
descriptor file is absent. -/
def notFoundMessage (id : String) : String :=
  "dataset JSON file `" ++ id ++ ".dataset.json` not found"

/-- The console reports printed by the per-dataset delete callback of
`importDatasetFromDir` (lines 90-98), one per invocation the delete
response handler makes towards it: a falsy error prints `Deleted dataset`,
a truthy one prints `Deleting dataset failed`; a raised exception prints
nothing further. -/
def deleteReports (id : String) : List CbCall → List Event
  | [] => []
  | .call none :: rest => Event.logDeleted id :: deleteReports id rest
  | .call (some _) :: rest => Event.logDeleteFailed id :: deleteReports id rest
  | .raise :: _ => []

/-- `createDataset`: check `<id>.dataset.json` exists (failing with
`notFoundMessage` otherwise), read it, POST it to `datasets`, and hand the
response to `createResponseHandler`.  Yields the emitted events and the
callback invocation towards `importDatasetFromDir`. -/
def createDatasetRun (d : DatasetDescriptor) (env : DatasetEnv) :
    List Event × CbCall :=
  if env.descriptorExists then
    ([.apiPost env.descriptorText], createResponseHandler env.createResult)
  else
    ([], .call (some (notFoundMessage d.id)))

/-- `path.basename` of `path.join(dataset.dir, dataset.id + '.' + file +
'.ndjson')`. -/
def ndjsonBase (d : DatasetDescriptor) (file : String) : String :=
  d.id ++ "." ++ file ++ ".ndjson"

/-- The console output of one `done` classification. -/
def doneEvents (base : String) (r : Option HttpResult) : List Event :=
  match uploadDone r with
  | .transportFail _ => [.logUploadFailedTransport base]
  | .success => [.logUploadSuccess base]
  | .appFailDetails _ => [.logUploadFailedApp base]
  | .appFail _ => [.logUploadFailedApp base]

/-- `uploadFile`: if the data file is absent, print the `File not found`
notice and run `done` with no response at all (`cb()` from `putFile`);
otherwise PUT the file to `datasets/<id>/<file>` and run `done` on the
result.  Either way `done` finally invokes the series callback, so this step
always completes. -/
def uploadFileTrace (d : DatasetDescriptor) (file : String)
    (fileExists : Bool) (r : HttpResult) : List Event :=
  if fileExists then
    .apiPut d.id file :: doneEvents (ndjsonBase d file) (some r)
  else
    .noticeFileNotFound (ndjsonBase d file) :: doneEvents (ndjsonBase d file) none

/-- `uploadData`: `async.eachSeries(['pits', 'relations'], uploadFile, cb)` —
the `pits` step runs to completion, then the `relations` step. -/
def uploadDataTrace (d : DatasetDescriptor) (env : DatasetEnv) : List Event :=
  uploadFileTrace d "pits" env.pitsExists env.pitsResult ++
    uploadFileTrace d "relations" env.relationsExists env.relationsResult

/-- `importDatasetFromDir`: with `--clear`, issue the delete and run the
per-dataset callback once for EVERY invocation the delete response handler
makes — so a 200 response, whose handler falls through (see
`deleteResponseHandler`), prints its success report and then a second
report derived from the body.  Otherwise run `createDataset`; on error
report and skip uploads, on success report and run `uploadData` (these
paths invoke the series callback exactly once, or raise before it).  The
`StepExit` classifies the step's treatment of the series callback. -/
def importDatasetFromDirTrace (clear : Bool) (d : DatasetDescriptor)
    (env : DatasetEnv) : List Event × StepExit :=
  if clear then
    (.apiDelete d.id :: deleteReports d.id (deleteResponseHandler env.deleteResult),
      stepExitOf (deleteResponseHandler env.deleteResult))
  else
    match createDatasetRun d env with
    | (tr, .call (some _)) => (tr ++ [.logCreateFailed d.id], .clean)
    | (tr, .call none) =>
        (tr ++ .logCreated d.id :: uploadDataTrace d env, .clean)
    | (tr, .raise) => (tr, .never)

/-- `gotDirectories`' processing loop over the flattened descriptor list.
`notFound` is the very array `datasets` (`var notFound = datasets;` aliases,
`splice` mutates in place), so a single list `s` plays both roles: the
`datasets.length > 0` guard and the `spliceRemove` operate on the same
shrinking list.  Yields the event trace, the final `notFound` list, and
whether the series ran to completion in order.  The series continues only
past a step that invoked its callback exactly once; at a step that raised
before any callback, or violated the once-discipline (where subsequent
behaviour is `async`-version-dependent and not modelled), the orderly run
is over and `done` never prints its report. -/
def processLoop (clear : Bool) (pairs : List (DatasetDescriptor × DatasetEnv))
    (s : List String) : List Event × List String × Bool :=
  match pairs with
  | [] => ([], s, true)
  | (d, env) :: rest =>
      let s' := if s.length > 0 then spliceRemove s d.id else s
      let step := importDatasetFromDirTrace clear d env
      if step.2 = StepExit.clean then
        let next := processLoop clear rest s'
        (step.1 ++ next.1, next.2)
      else
        (step.1, s', false)

/-- The whole run: uniq the requested identifiers, scan every configured
root with `getDirectory`, flatten, process each descriptor in order, and —
only if the series completed — report the final `notFound` list when it is
non-empty (`done` of `gotDirectories`).  `envOf` supplies each descriptor's
filesystem / network environment. -/
def runImport (clear : Bool) (requested : List String)
    (roots : List (String × List Entry))
    (envOf : DatasetDescriptor → DatasetEnv) :
    List Event × Option (List String) :=
  let datasets := uniq requested
  let dirs := (roots.map (fun r => getDirectory datasets r.1 r.2)).flatten
  let out := processLoop clear (dirs.map (fun d => (d, envOf d))) datasets
  (out.1, if out.2.2 ∧ out.2.1.length > 0 then some out.2.1 else none)

/-- A concrete environment whose every request fails at the transport level
and whose data files are absent. -/
def envRefused : DatasetEnv :=
  ⟨true, "", .transportError "refused", .transportError "refused",
   false, .transportError "x", false, .transportError "x"⟩

/-- A concrete environment whose delete request yields HTTP 500 with a body
that is not valid JSON. -/
def envRaiseOnDelete : DatasetEnv :=
  { envRefused with deleteResult := .response ⟨500, .rawBody "oops"⟩ }

/-- A concrete environment with no `<id>.dataset.json` descriptor file. -/
def envNoDescriptor : DatasetEnv :=
  { envRefused with descriptorExists := false }

/-- A concrete environment whose delete request answers HTTP 200 with the
JSON body whose `message` field is `"gone"`. -/
def envDel200 : DatasetEnv :=
  { envRefused with
      deleteResult := .response ⟨200, .jsonBody ⟨some "gone", none⟩⟩ }

/-- A concrete environment where creation answers 201, both data files exist
and both uploads answer HTTP 200. -/
def envBothFiles : DatasetEnv :=
  ⟨true, "{}", .response ⟨201, .jsonBody ⟨none, none⟩⟩, .transportError "x",
   true, .response ⟨200, .jsonBody ⟨none, none⟩⟩,
   true, .response ⟨200, .jsonBody ⟨none, none⟩⟩⟩

end Histograph

namespace Histograph

/-! ## Helper lemmas -/

/-- `doneEvents` only ever prints upload reports; it issues no request. -/
lemma doneEvents_no_put (base : String) (r : Option HttpResult) (id f : String) :
    Event.apiPut id f ∉ doneEvents base r := by
  unfold doneEvents
  split <;> simp

/-- Any PUT recorded by `uploadFileTrace` carries the file kind of that
step. -/
lemma uploadFileTrace_put_file (d : DatasetDescriptor) (file : String)
    (fileExists : Bool) (r : HttpResult) (id f : String)
    (h : Event.apiPut id f ∈ uploadFileTrace d file fileExists r) : f = file := by
  unfold uploadFileTrace at h
  split at h <;> rcases List.mem_cons.mp h with h1 | h1
  · injection h1 with _ hf
  · exact absurd h1 (doneEvents_no_put _ _ _ _)
  · exact absurd h1 (by simp)
  · exact absurd h1 (doneEvents_no_put _ _ _ _)

/-- `createDataset` issues no PUT request. -/
lemma createDatasetRun_no_put (d : DatasetDescriptor) (env : DatasetEnv)
    (id f : String) : Event.apiPut id f ∉ (createDatasetRun d env).1 := by
  unfold createDatasetRun
  split <;> simp

/-- When the create step's callback reports an error, `importDatasetFromDir`
only logs the failure and invokes its callback. -/
lemma import_create_fail (d : DatasetDescriptor) (env : DatasetEnv) (e : String)
    (hfail : (createDatasetRun d env).2 = .call (some e)) :
    importDatasetFromDirTrace false d env =
      ((createDatasetRun d env).1 ++ [.logCreateFailed d.id], .clean) := by
  cases hcr : createDatasetRun d env with
  | mk tr cb =>
    have hcb : cb = CbCall.call (some e) := by
      have h2 := hfail
      rw [hcr] at h2
      exact h2
    subst hcb
    simp [importDatasetFromDirTrace, hcr]

/-- The reports of a delete step are only `logDeleted` / `logDeleteFailed`
entries for that dataset. -/
lemma deleteReports_events (id : String) (cs : List CbCall) :
    ∀ e ∈ deleteReports id cs,
      e = Event.logDeleted id ∨ e = Event.logDeleteFailed id := by
  induction cs with
  | nil => intro e he; simp [deleteReports] at he
  | cons c rest ih =>
    intro e he
    cases c with
    | call o =>
      cases o with
      | none =>
        simp only [deleteReports] at he
        rcases List.mem_cons.mp he with h | h
        · exact Or.inl h
        · exact ih e h
      | some m =>
        simp only [deleteReports] at he
        rcases List.mem_cons.mp he with h | h
        · exact Or.inr h
        · exact ih e h
    | raise =>
      simp only [deleteReports] at he
      simp at he

/-- A step exit is `clean` exactly when the handler invoked its callback
exactly once and returned. -/
lemma stepExitOf_eq_clean (cs : List CbCall) :
    stepExitOf cs = .clean ↔ ∃ x, cs = [.call x] := by
  cases cs with
  | nil => simp [stepExitOf]
  | cons c rest =>
    cases c with
    | call o =>
      cases rest with
      | nil => simp [stepExitOf]
      | cons c2 rest2 => simp [stepExitOf]
    | raise => simp [stepExitOf]

/-- Unfolding of `processLoop` at a cons cell. -/
lemma processLoop_cons (clear : Bool) (d : DatasetDescriptor) (env : DatasetEnv)
    (rest : List (DatasetDescriptor × DatasetEnv)) (s : List String) :
    processLoop clear ((d, env) :: rest) s =
      if (importDatasetFromDirTrace clear d env).2 = StepExit.clean then
        ((importDatasetFromDirTrace clear d env).1 ++
            (processLoop clear rest
              (if s.length > 0 then spliceRemove s d.id else s)).1,
          (processLoop clear rest
            (if s.length > 0 then spliceRemove s d.id else s)).2)
      else ((importDatasetFromDirTrace clear d env).1,
        if s.length > 0 then spliceRemove s d.id else s, false) := rfl

/-- Unfolding of `processLoop` at a dataset whose step kept the series'
callback discipline. -/
lemma processLoop_cons_continue (clear : Bool) (d : DatasetDescriptor)
    (env : DatasetEnv) (rest : List (DatasetDescriptor × DatasetEnv))
    (s : List String)
    (h : (importDatasetFromDirTrace clear d env).2 = StepExit.clean) :
    (processLoop clear ((d, env) :: rest) s).1 =
      (importDatasetFromDirTrace clear d env).1 ++
        (processLoop clear rest
          (if s.length > 0 then spliceRemove s d.id else s)).1 := by
  rw [processLoop_cons, if_pos h]

/-- Every event of a clear-mode dataset step is the delete request or a
delete report. -/
lemma clear_import_events (d : DatasetDescriptor) (env : DatasetEnv) :
    ∀ e ∈ (importDatasetFromDirTrace true d env).1,
      (∃ id, e = Event.apiDelete id) ∨ (∃ id, e = Event.logDeleted id) ∨
        (∃ id, e = Event.logDeleteFailed id) := by
  intro e he
  have he2 : e ∈ Event.apiDelete d.id ::
      deleteReports d.id (deleteResponseHandler env.deleteResult) := he
  rcases List.mem_cons.mp he2 with h | h
  · exact Or.inl ⟨d.id, h⟩
  · rcases deleteReports_events d.id _ e h with h | h
    · exact Or.inr (Or.inl ⟨d.id, h⟩)
    · exact Or.inr (Or.inr ⟨d.id, h⟩)

/-- Every event of a clear-mode run is a delete request or a delete report. -/
lemma clear_processLoop_events (pairs : List (DatasetDescriptor × DatasetEnv))
    (s : List String) :
    ∀ e ∈ (processLoop true pairs s).1,
      (∃ id, e = Event.apiDelete id) ∨ (∃ id, e = Event.logDeleted id) ∨
        (∃ id, e = Event.logDeleteFailed id) := by
  induction pairs generalizing s with
  | nil => intro e he; simp [processLoop] at he
  | cons p rest ih =>
    obtain ⟨d, env⟩ := p
    intro e he
    rw [processLoop_cons] at he
    by_cases hc : (importDatasetFromDirTrace true d env).2 = StepExit.clean
    · rw [if_pos hc] at he
      rcases List.mem_append.mp he with he | he
      · exact clear_import_events d env e he
      · exact ih _ e he
    · rw [if_neg hc] at he
      exact clear_import_events d env e he

/-! ## Claim theorems -/

/-- C1, counterexample: a create response with HTTP status 500 whose body is
the JSON object with no `message` field makes `responseHandler` run
`cb(undefined)`, so the per-dataset callback receives no error and the
dataset is treated as successfully created — the claim that "a response with
any other status is treated as failure" is false at this input. -/
theorem create_nonsuccess_treated_as_success :
    createResponseHandler (.response ⟨500, .jsonBody ⟨none, none⟩⟩) = .call none ∧
    ¬(500 = 201 ∨ 500 = 409) := by decide

/-- C1 (amended): for every create-dataset response, status 201 or 409 is
success (the callback receives no error); for any other status the callback
receives the parsed body's `message` field — a failure when the field is
present, but no error (success at the caller) when the JSON body lacks a
`message`, and a thrown parse exception (no callback at all) when the body
is not valid JSON. -/
theorem create_status_handling (res : Response) :
    ((res.statusCode = 201 ∨ res.statusCode = 409) →
        createResponseHandler (.response res) = .call none) ∧
    (¬(res.statusCode = 201 ∨ res.statusCode = 409) →
        ((∀ obj, res.body = .jsonBody obj →
            createResponseHandler (.response res) = .call obj.message) ∧
         (∀ raw, res.body = .rawBody raw →
            createResponseHandler (.response res) = .raise))) := by
  refine ⟨fun h => by simp [createResponseHandler, h], fun h => ⟨?_, ?_⟩⟩
  · intro obj hb
    simp [createResponseHandler, h, hb]
  · intro raw hb
    simp [createResponseHandler, h, hb]

/-- Witness for `create_status_handling` at statuses 409 and 500. -/
theorem create_status_handling_witness :
    createResponseHandler (.response ⟨409, .rawBody "x"⟩) = .call none ∧
    createResponseHandler (.response ⟨500, .jsonBody ⟨some "bad", none⟩⟩) =
      .call (some "bad") :=
  ⟨(create_status_handling ⟨409, .rawBody "x"⟩).1 (Or.inr rfl),
   ((create_status_handling ⟨500, .jsonBody ⟨some "bad", none⟩⟩).2
      (by decide)).1 ⟨some "bad", none⟩ rfl⟩

/-- C2: requesting datasets `a` and `b` where `a` is discovered under two
configured roots and `b` under none.  The second occurrence of `a` runs
`notFound.splice(notFound.indexOf('a'), 1)` with `indexOf` yielding `-1`,
which deletes the LAST element — the still-unmatched `b` — so the run ends
with no not-found report at all, although the claim requires `b` to appear
in it exactly once.  The first conjunct checks that no discovered descriptor
is named `b`. -/
theorem notfound_lost_on_duplicate_roots :
    (∀ desc ∈ (([("r1", [Entry.mk "a" true]), ("r2", [Entry.mk "a" true])].map
        (fun r => getDirectory (uniq ["a", "b"]) r.1 r.2)).flatten),
      desc.id ≠ "b") ∧
    (runImport true ["a", "b"] [("r1", [⟨"a", true⟩]), ("r2", [⟨"a", true⟩])]
      (fun _ => envRefused)).2 = none := by decide

/-- C3: a delete response with HTTP status 200 and JSON body
`{"message": "gone"}` makes `responseHandler` invoke the callback twice —
`cb()` (success) and then, because the 200 branch lacks a `return`,
`cb(JSON.parse(res.body).message)` (failure "gone").  Success and failure
are therefore not mutually exclusive outcomes of one request. -/
theorem delete_double_callback_on_ok :
    deleteResponseHandler (.response ⟨200, .jsonBody ⟨some "gone", none⟩⟩) =
      [.call none, .call (some "gone")] := rfl

/-- C4, counterexample: a create response with status 500 and a body that is
not valid JSON makes the bare `JSON.parse(res.body)` of `createDataset`'s
`responseHandler` throw — the extraction raises instead of falling back to
the raw body text. -/
theorem create_rawbody_extraction_raises :
    createResponseHandler (.response ⟨500, .rawBody "oops"⟩) = .raise ∧
    ¬(500 = 201 ∨ 500 = 409) := by decide

/-- C4 (amended): on a non-success status, the upload path extracts the
error from the body's `message` field and falls back to the raw body text
when the body is not valid JSON (its parse is wrapped in try/catch and never
raises), while the create and delete paths parse the body unconditionally
and throw on a body that is not valid JSON. -/
theorem error_message_extraction (code : Nat) (obj : JsonObj) (raw : String)
    (h200 : ¬ code = 200) (hcr : ¬(code = 201 ∨ code = 409)) :
    uploadDone (some (.response ⟨code, .jsonBody obj⟩)) =
      (if obj.details.isSome then .appFailDetails obj else .appFail obj.message) ∧
    uploadDone (some (.response ⟨code, .rawBody raw⟩)) = .appFail (some raw) ∧
    createResponseHandler (.response ⟨code, .rawBody raw⟩) = .raise ∧
    deleteResponseHandler (.response ⟨code, .rawBody raw⟩) = [.raise] := by
  refine ⟨?_, ?_, ?_, ?_⟩ <;>
    simp [uploadDone, createResponseHandler, deleteResponseHandler,
      appFailOf, uploadParseBody, h200, hcr]

/-- Witness for `error_message_extraction` at status 500. -/
theorem error_message_extraction_witness :
    uploadDone (some (.response ⟨500, .jsonBody ⟨some "m", none⟩⟩)) =
      .appFail (some "m") ∧
    uploadDone (some (.response ⟨500, .rawBody "oops"⟩)) = .appFail (some "oops") ∧
    createResponseHandler (.response ⟨500, .rawBody "oops"⟩) = .raise ∧
    deleteResponseHandler (.response ⟨500, .rawBody "oops"⟩) = [.raise] := by
  have h := error_message_extraction 500 ⟨some "m", none⟩ "oops"
    (by decide) (by decide)
  simpa using h

/-- C7: for a dataset whose `pits` file is absent, the upload step prints the
`File not found` notice and issues no PUT — but the completion handler
`done(null)` then lands in the application-failure branch (`res` is
undefined, `JSON.parse(undefined)` throws into the catch) and additionally
prints `Upload failed`, reporting the skip as an error although the claim
(and the spec) say it is not one.  The loop still continues to the next
file. -/
theorem missing_file_logged_as_failed_upload :
    uploadFileTrace ⟨"a", "r/a"⟩ "pits" false (.transportError "x") =
      [.noticeFileNotFound "a.pits.ndjson", .logUploadFailedApp "a.pits.ndjson"] ∧
    (∀ id f, Event.apiPut id f ∉
        uploadFileTrace ⟨"a", "r/a"⟩ "pits" false (.transportError "x")) := by
  constructor
  · decide
  · intro id f h
    rw [show uploadFileTrace ⟨"a", "r/a"⟩ "pits" false (.transportError "x") =
        [.noticeFileNotFound "a.pits.ndjson",
         .logUploadFailedApp "a.pits.ndjson"] from by decide] at h
    simp at h

/-- C9, counterexample: with `--clear` and two resolved datasets, a delete
response for the first with status 500 and a non-JSON body makes
`responseHandler` throw before any callback, so the run halts: the second
dataset's delete is never issued — processing does not continue "regardless
of each delete's outcome". -/
theorem clear_run_halts_on_unparsable_body :
    (processLoop true [(⟨"a", "r/a"⟩, envRaiseOnDelete),
        (⟨"b", "r/b"⟩, envRefused)] []).1 = [.apiDelete "a"] ∧
    (processLoop true [(⟨"a", "r/a"⟩, envRaiseOnDelete),
        (⟨"b", "r/b"⟩, envRefused)] []).2.2 = false := by
  decide

/-- C5: whenever the create step's callback reports an error — including the
absent-descriptor case, whose error is exactly `notFoundMessage` — the
dataset's trace contains no PUT request (zero upload attempts), and the
processing loop still continues with the remaining datasets. -/
theorem create_failure_blocks_uploads (d : DatasetDescriptor) (env : DatasetEnv)
    (rest : List (DatasetDescriptor × DatasetEnv)) (s : List String) (e : String)
    (hfail : (createDatasetRun d env).2 = .call (some e)) :
    (∀ id f, Event.apiPut id f ∉ (importDatasetFromDirTrace false d env).1) ∧
    (env.descriptorExists = false → e = notFoundMessage d.id) ∧
    (processLoop false ((d, env) :: rest) s).1 =
      (importDatasetFromDirTrace false d env).1 ++
        (processLoop false rest
          (if s.length > 0 then spliceRemove s d.id else s)).1 := by
  have himp := import_create_fail d env e hfail
  refine ⟨?_, ?_, ?_⟩
  · intro id f hmem
    rw [himp] at hmem
    rcases List.mem_append.mp hmem with hmem | hmem
    · exact createDatasetRun_no_put d env id f hmem
    · simp at hmem
  · intro hde
    have hrun : createDatasetRun d env =
        ([], .call (some (notFoundMessage d.id))) := by
      simp [createDatasetRun, hde]
    rw [hrun] at hfail
    have h2 : CbCall.call (some (notFoundMessage d.id)) =
        CbCall.call (some e) := hfail
    injection h2 with h3
    injection h3 with h4
    exact h4.symm
  · exact processLoop_cons_continue false d env rest s (by rw [himp])

/-- Witness for `create_failure_blocks_uploads`: a dataset whose
`<id>.dataset.json` is absent. -/
theorem create_failure_blocks_uploads_witness :
    (createDatasetRun ⟨"a", "r/a"⟩ envNoDescriptor).2 =
      .call (some (notFoundMessage "a")) ∧
    ((∀ id f, Event.apiPut id f ∉
        (importDatasetFromDirTrace false ⟨"a", "r/a"⟩ envNoDescriptor).1) ∧
     (envNoDescriptor.descriptorExists = false →
        notFoundMessage "a" = notFoundMessage "a") ∧
     (processLoop false [(⟨"a", "r/a"⟩, envNoDescriptor)] []).1 =
       (importDatasetFromDirTrace false ⟨"a", "r/a"⟩ envNoDescriptor).1 ++
         (processLoop false []
           (if ([] : List String).length > 0 then spliceRemove [] "a"
            else [])).1) :=
  ⟨rfl, create_failure_blocks_uploads ⟨"a", "r/a"⟩ envNoDescriptor [] []
    (notFoundMessage "a") rfl⟩

/-- C6: the Directory Scanner never emits a descriptor named after an entry
of the ignore set or the current-directory marker, whatever the requested
dataset list is. -/
theorem scanner_never_emits_ignored (datasets : List String) (dataDir : String)
    (entries : List Entry) (name : String)
    (h : name ∈ ignoredDirs ∨ name = ".") :
    ∀ desc ∈ getDirectory datasets dataDir entries, desc.id ≠ name := by
  intro desc hdesc heq
  simp only [getDirectory, List.mem_map] at hdesc
  obtain ⟨nm, hnm, rfl⟩ := hdesc
  have hpred := (List.mem_filter.mp hnm).2
  have hnm_eq : nm = name := heq
  subst hnm_eq
  rcases h with h | h
  · simp [validFolderPredicate] at hpred
    exact hpred.1.2 h
  · rw [h] at hpred
    simp [validFolderPredicate] at hpred

/-- Witness for `scanner_never_emits_ignored`: `node_modules` is never
emitted even when it is explicitly requested. -/
theorem scanner_never_emits_ignored_witness :
    ("node_modules" ∈ ignoredDirs ∨ "node_modules" = ".") ∧
    ∀ desc ∈ getDirectory ["node_modules", "a"] "root"
        [⟨"node_modules", true⟩, ⟨"a", true⟩],
      desc.id ≠ "node_modules" :=
  ⟨Or.inl (by decide),
    scanner_never_emits_ignored ["node_modules", "a"] "root"
      [⟨"node_modules", true⟩, ⟨"a", true⟩] "node_modules" (Or.inl (by decide))⟩

/-- C8: within one dataset's upload trace, the PUT for `pits` always occurs
strictly before the PUT for `relations`, and the `relations` PUT occurs only
after the whole `pits` step (request and report) has completed. -/
theorem pits_upload_precedes_relations (d : DatasetDescriptor) (env : DatasetEnv)
    (i j : ℕ)
    (hi : (uploadDataTrace d env)[i]? = some (Event.apiPut d.id "pits"))
    (hj : (uploadDataTrace d env)[j]? = some (Event.apiPut d.id "relations")) :
    i < j ∧
      (uploadFileTrace d "pits" env.pitsExists env.pitsResult).length ≤ j := by
  have htr : uploadDataTrace d env =
      uploadFileTrace d "pits" env.pitsExists env.pitsResult ++
        uploadFileTrace d "relations" env.relationsExists env.relationsResult := rfl
  have hjge :
      (uploadFileTrace d "pits" env.pitsExists env.pitsResult).length ≤ j := by
    by_contra hlt
    push_neg at hlt
    rw [htr, List.getElem?_append_left hlt] at hj
    have hmem := List.getElem?_mem hj
    have hfile := uploadFileTrace_put_file d "pits" env.pitsExists
      env.pitsResult d.id "relations" hmem
    exact absurd hfile (by decide)
  have hilt :
      i < (uploadFileTrace d "pits" env.pitsExists env.pitsResult).length := by
    by_contra hge
    push_neg at hge
    rw [htr, List.getElem?_append_right hge] at hi
    have hmem := List.getElem?_mem hi
    have hfile := uploadFileTrace_put_file d "relations" env.relationsExists
      env.relationsResult d.id "pits" hmem
    exact absurd hfile (by decide)
  exact ⟨lt_of_lt_of_le hilt hjge, hjge⟩

/-- Witness for `pits_upload_precedes_relations`: both files exist and both
uploads answer 200; the `pits` PUT sits at index 0, the `relations` PUT at
index 2, after the two-event `pits` step. -/
theorem pits_upload_precedes_relations_witness :
    (uploadDataTrace ⟨"a", "r/a"⟩ envBothFiles)[0]? =
      some (Event.apiPut "a" "pits") ∧
    (uploadDataTrace ⟨"a", "r/a"⟩ envBothFiles)[2]? =
      some (Event.apiPut "a" "relations") ∧
    (0 < 2 ∧
      (uploadFileTrace ⟨"a", "r/a"⟩ "pits" envBothFiles.pitsExists
        envBothFiles.pitsResult).length ≤ 2) := by
  have h1 : (uploadDataTrace ⟨"a", "r/a"⟩ envBothFiles)[0]? =
      some (Event.apiPut "a" "pits") := by decide
  have h2 : (uploadDataTrace ⟨"a", "r/a"⟩ envBothFiles)[2]? =
      some (Event.apiPut "a" "relations") := by decide
  exact ⟨h1, h2,
    pits_upload_precedes_relations ⟨"a", "r/a"⟩ envBothFiles 0 2 h1 h2⟩

/-- C9 (amended): with `--clear`, a run issues only delete requests â never
a create (POST) or an upload (PUT) call.  Processing continues in order to
the next dataset exactly when the delete handler invokes the per-dataset
callback once and returns â every transport error, and every non-200
response whose body is valid JSON â and such a step is one delete plus one
report.  It does not continue regardless of each delete's outcome: a 200
response makes the handler fall through and invoke the callback a second
time with the message parsed from the body, so the dataset is reported both
deleted and failed and the series' once-per-item callback discipline is
broken (a guard throw or a duplicated advance, by `async` version), while a
non-200 response with a non-JSON body raises before any callback and halts
the run (`clear_run_halts_on_unparsable_body`). -/
theorem clear_mode_only_deletes (pairs : List (DatasetDescriptor × DatasetEnv))
    (s : List String) (d : DatasetDescriptor) (env env2 : DatasetEnv)
    (rest : List (DatasetDescriptor × DatasetEnv)) (x : Option String)
    (obj : JsonObj)
    (hsingle : deleteResponseHandler env.deleteResult = [.call x])
    (h200 : env2.deleteResult = .response ⟨200, .jsonBody obj⟩) :
    (∀ e ∈ (processLoop true pairs s).1,
        (∀ b, e ≠ Event.apiPost b) ∧ (∀ id f, e ≠ Event.apiPut id f)) ∧
    (processLoop true ((d, env) :: rest) s).1 =
      (importDatasetFromDirTrace true d env).1 ++
        (processLoop true rest
          (if s.length > 0 then spliceRemove s d.id else s)).1 ∧
    (importDatasetFromDirTrace true d env).1 =
      [Event.apiDelete d.id,
        if x.isSome then Event.logDeleteFailed d.id
        else Event.logDeleted d.id] ∧
    deleteResponseHandler env2.deleteResult = [.call none, .call obj.message] ∧
    (importDatasetFromDirTrace true d env2).2 ≠ StepExit.clean ∧
    (importDatasetFromDirTrace true d env2).1 =
      [Event.apiDelete d.id, Event.logDeleted d.id,
        if obj.message.isSome then Event.logDeleteFailed d.id
        else Event.logDeleted d.id] := by
  have h2 : deleteResponseHandler env2.deleteResult =
      [.call none, .call obj.message] := by
    rw [h200]
    simp [deleteResponseHandler]
  refine ⟨?_, ?_, ?_, h2, ?_, ?_⟩
  · intro e he
    rcases clear_processLoop_events _ _ e he with ⟨id, rfl⟩ | ⟨id, rfl⟩ | ⟨id, rfl⟩ <;>
      exact ⟨fun b => by simp, fun id2 f => by simp⟩
  · refine processLoop_cons_continue true d env rest s ?_
    show stepExitOf (deleteResponseHandler env.deleteResult) = StepExit.clean
    rw [hsingle]
    exact rfl
  · show Event.apiDelete d.id ::
        deleteReports d.id (deleteResponseHandler env.deleteResult) = _
    rw [hsingle]
    cases x <;> simp [deleteReports]
  · show stepExitOf (deleteResponseHandler env2.deleteResult) ≠ StepExit.clean
    rw [h2]
    cases obj.message <;> simp [stepExitOf]
  · show Event.apiDelete d.id ::
        deleteReports d.id (deleteResponseHandler env2.deleteResult) = _
    rw [h2]
    cases hm : obj.message <;> simp [deleteReports, hm]

/-- Witness for `clear_mode_only_deletes`: a transport-error delete (single
callback invocation, clean continuation) alongside a 200 delete whose
handler falls through into a second, failure-reporting invocation. -/
theorem clear_mode_only_deletes_witness :
    deleteResponseHandler envRefused.deleteResult = [.call (some "refused")] ∧
    envDel200.deleteResult = .response ⟨200, .jsonBody ⟨some "gone", none⟩⟩ ∧
    ((∀ e ∈ (processLoop true [(⟨"a", "r/a"⟩, envRefused)] []).1,
        (∀ b, e ≠ Event.apiPost b) ∧ (∀ id f, e ≠ Event.apiPut id f)) ∧
     (processLoop true [(⟨"a", "r/a"⟩, envRefused)] []).1 =
       (importDatasetFromDirTrace true ⟨"a", "r/a"⟩ envRefused).1 ++
         (processLoop true []
           (if ([] : List String).length > 0 then spliceRemove [] "a"
            else [])).1 ∧
     (importDatasetFromDirTrace true ⟨"a", "r/a"⟩ envRefused).1 =
       [Event.apiDelete "a", Event.logDeleteFailed "a"] ∧
     deleteResponseHandler envDel200.deleteResult =
       [.call none, .call (some "gone")] ∧
     (importDatasetFromDirTrace true ⟨"a", "r/a"⟩ envDel200).2 ≠
       StepExit.clean ∧
     (importDatasetFromDirTrace true ⟨"a", "r/a"⟩ envDel200).1 =
       [Event.apiDelete "a", Event.logDeleted "a", Event.logDeleteFailed "a"]) :=
  ⟨rfl, rfl,
    clear_mode_only_deletes [(⟨"a", "r/a"⟩, envRefused)] [] ⟨"a", "r/a"⟩
      envRefused envDel200 [] (some "refused") ⟨some "gone", none⟩ rfl rfl⟩

/-- C10: the Directory Scanner emits a descriptor for every entry passing the
name filter, never consulting whether the entry is a directory — flipping
every entry's directory bit leaves the output unchanged, so a regular file
in the import root also yields a dataset descriptor. -/
theorem scanner_ignores_entry_type (datasets : List String) (dataDir : String)
    (entries : List Entry) (e : Entry) (he : e ∈ entries)
    (hname : validFolderPredicate datasets e.name = true) :
    makeDirectoryObject dataDir e.name ∈ getDirectory datasets dataDir entries ∧
    getDirectory datasets dataDir entries =
      getDirectory datasets dataDir
        (entries.map (fun x => ⟨x.name, !x.isDir⟩)) := by
  constructor
  · simp only [getDirectory]
    exact List.mem_map_of_mem _
      (List.mem_filter.mpr ⟨List.mem_map_of_mem _ he, hname⟩)
  · unfold getDirectory
    rw [List.map_map]
    exact rfl

/-- Witness for `scanner_ignores_entry_type`: a regular file named `afile`
(`isDir = false`) in the import root yields a dataset descriptor. -/
theorem scanner_ignores_entry_type_witness :
    validFolderPredicate [] (Entry.mk "afile" false).name = true ∧
    makeDirectoryObject "root" (Entry.mk "afile" false).name ∈
      getDirectory [] "root" [⟨"afile", false⟩] :=
  ⟨by decide,
    (scanner_ignores_entry_type [] "root" [⟨"afile", false⟩] ⟨"afile", false⟩
      (by decide) (by decide)).1⟩

end Histograph
